import Mathlib

/-!
Verification of `src/Scripts/eval_bucketing.py`.

Python strings are modelled as lists of Unicode codepoints (`List Nat`);
`str.lower` and `str.strip` are modelled on the ASCII range, which covers every
string the program manipulates.  Each definition below mirrors one Python
function or table of the source file, keeping its name where Lean allows it.
-/

namespace EvalBucketing

/-- A Python string, as its list of Unicode codepoints. -/
abbrev Str := List Nat

/-- Codepoints of a Lean string literal, used to write concrete Python strings. -/
def S (s : String) : Str := s.data.map Char.toNat

/-- Python whitespace (ASCII range), as stripped by `str.strip()`. -/
def isSpaceB (a : Nat) : Bool :=
  decide (a = 32 ∨ a = 9 ∨ a = 10 ∨ a = 13 ∨ a = 11 ∨ a = 12)

/-- `str.lower()` on one codepoint (ASCII range). -/
def lowerC (a : Nat) : Nat := if 65 ≤ a ∧ a ≤ 90 then a + 32 else a

/-- `str.lower()`. -/
def pyLower (l : Str) : Str := l.map lowerC

/-- `str.strip()`: drop leading and trailing whitespace. -/
def pyStrip (l : Str) : Str :=
  ((l.dropWhile isSpaceB).reverse.dropWhile isSpaceB).reverse

/-- `str.split(sep)` for a one-character separator `sep`. -/
def pySplit (sep : Nat) : List Nat → List (List Nat)
  | [] => [[]]
  | a :: t =>
    match pySplit sep t with
    | [] => [[]]
    | h :: r => if a = sep then [] :: h :: r else (a :: h) :: r

/-- `str.startswith(p)`. -/
def startsWith : Str → Str → Bool
  | [], _ => true
  | _ :: _, [] => false
  | a :: p, b :: l => a == b && startsWith p l

/-- Python's substring test `p in s`. -/
def isSubstr (p s : Str) : Bool := s.tails.any (fun t => startsWith p t)

/-- `str.replace(pat, rep)` (all non-overlapping occurrences, left to right). -/
def pyReplace (pat rep : Str) (l : Str) : Str :=
  if hp : pat = [] then l
  else if h : startsWith pat l = true then
    rep ++ pyReplace pat rep (l.drop pat.length)
  else
    match l with
    | [] => []
    | a :: t => a :: pyReplace pat rep t
termination_by l.length
decreasing_by
  · have key : ∀ (p m : Str), startsWith p m = true → p.length ≤ m.length := by
      intro p
      induction p with
      | nil => intro m _; simp
      | cons a t ih =>
        intro m hm
        cases m with
        | nil => simp [startsWith] at hm
        | cons b u =>
          simp only [startsWith, Bool.and_eq_true] at hm
          have := ih u hm.2
          simp only [List.length_cons]
          omega
    have hle : pat.length ≤ l.length := key pat l h
    have hpos : 0 < pat.length := by
      cases pat with
      | nil => exact absurd rfl hp
      | cons a p => simp
    simp only [List.length_drop]
    omega
  · simp

/-- Lexicographic comparison of Python strings (`sorted` order). -/
def lexLe : Str → Str → Bool
  | [], _ => true
  | _ :: _, [] => false
  | a :: x, b :: y => if a < b then true else if b < a then false else lexLe x y

/-- Insertion into a `lexLe`-sorted list. -/
def insertStr (a : Str) : List Str → List Str
  | [] => [a]
  | b :: t => if lexLe a b then a :: b :: t else b :: insertStr a t

/-- `sorted` on a list of strings (insertion sort by `lexLe`). -/
def sortStr : List Str → List Str
  | [] => []
  | a :: t => insertStr a (sortStr t)

/-- Association-list lookup, modelling Python `dict` access (keys are unique). -/
def alookup {α : Type} : List (Str × α) → Str → Option α
  | [], _ => none
  | (a, b) :: r, k => if a = k then some b else alookup r k

/-- The `EMOTION_MAP` dict of the source: fine-grained word → coarse emotion. -/
def EMOTION_MAP : List (Str × Str) :=
  [(S "happy", S "joy"), (S "excited", S "joy"), (S "proud", S "joy"),
   (S "grateful", S "joy"), (S "relieved", S "joy"), (S "motivated", S "joy"),
   (S "loved", S "joy"), (S "satisfied", S "joy"),
   (S "sad", S "sadness"), (S "lonely", S "sadness"), (S "tired", S "sadness"),
   (S "ashamed", S "sadness"), (S "embarrassed", S "sadness"),
   (S "bored", S "sadness"), (S "guilty", S "sadness"),
   (S "angry", S "anger"), (S "frustrated", S "anger"),
   (S "afraid", S "fear"), (S "anxious", S "fear"), (S "stressed", S "fear"),
   (S "surprised", S "surprise"),
   (S "disgusted", S "disgust"),
   (S "neutral", S "neutral"), (S "mixed", S "mixed")]

/-- The `DOMAIN_ALIAS` dict of the source: surface form → canonical domain. -/
def DOMAIN_ALIAS : List (Str × Str) :=
  [(S "exercise", S "exercise/fitness"), (S "fitness", S "exercise/fitness"),
   (S "exercise/fitness", S "exercise/fitness"),
   (S "family", S "family"),
   (S "friends", S "friends"),
   (S "relationships", S "relationships/marriage/partnership"),
   (S "marriage", S "relationships/marriage/partnership"),
   (S "partnership", S "relationships/marriage/partnership"),
   (S "relationships/marriage/partnership", S "relationships/marriage/partnership"),
   (S "love", S "love/romance"), (S "romance", S "love/romance"),
   (S "love/romance", S "love/romance"),
   (S "food", S "food/eating"), (S "eating", S "food/eating"),
   (S "food/eating", S "food/eating"),
   (S "sleep", S "sleep/rest"), (S "rest", S "sleep/rest"),
   (S "sleep/rest", S "sleep/rest"),
   (S "health", S "health/medical"), (S "medical", S "health/medical"),
   (S "health/medical", S "health/medical"),
   (S "work", S "work/career"), (S "career", S "work/career"),
   (S "work/career", S "work/career"),
   (S "money", S "money/finances"), (S "finances", S "money/finances"),
   (S "finance", S "money/finances"), (S "money/finances", S "money/finances"),
   (S "school", S "school/learning"), (S "learning", S "school/learning"),
   (S "school/learning", S "school/learning"),
   (S "spirituality", S "spirituality/religion"),
   (S "religion", S "spirituality/religion"),
   (S "spirituality/religion", S "spirituality/religion"),
   (S "recreation", S "recreation/leisure"), (S "leisure", S "recreation/leisure"),
   (S "recreation/leisure", S "recreation/leisure"),
   (S "travel", S "travel/nature"), (S "nature", S "travel/nature"),
   (S "travel/nature", S "travel/nature"),
   (S "creativity", S "creativity/art"), (S "art", S "creativity/art"),
   (S "creativity/art", S "creativity/art"),
   (S "community", S "community/society/politics"),
   (S "society", S "community/society/politics"),
   (S "politics", S "community/society/politics"),
   (S "community/society/politics", S "community/society/politics"),
   (S "technology", S "technology/media/internet"),
   (S "media", S "technology/media/internet"),
   (S "internet", S "technology/media/internet"),
   (S "technology/media/internet", S "technology/media/internet"),
   (S "self", S "self/growth/habits"), (S "growth", S "self/growth/habits"),
   (S "habits", S "self/growth/habits"),
   (S "self/growth/habits", S "self/growth/habits")]

/-- The `EMOTION_ADJ` dict of the source: coarse emotion → set of related ones. -/
def EMOTION_ADJ : List (Str × List Str) :=
  [(S "joy", [S "neutral"]),
   (S "neutral", [S "joy", S "sadness"]),
   (S "sadness", [S "anger", S "fear", S "neutral"]),
   (S "anger", [S "sadness"]),
   (S "fear", [S "sadness"]),
   (S "surprise", []),
   (S "disgust", [S "anger", S "sadness"]),
   (S "mixed", [S "joy", S "sadness", S "anger", S "fear", S "surprise",
                S "disgust", S "neutral"])]

/-- The `DOMAIN_ADJ` set of the source: unordered pairs of related domains
(stored with one ordering per pair). -/
def DOMAIN_ADJ : List (Str × Str) :=
  [(S "love/romance", S "relationships/marriage/partnership"),
   (S "work/career", S "money/finances"),
   (S "health/medical", S "exercise/fitness"),
   (S "food/eating", S "health/medical"),
   (S "family", S "friends"),
   (S "travel/nature", S "recreation/leisure"),
   (S "creativity/art", S "recreation/leisure"),
   (S "technology/media/internet", S "recreation/leisure"),
   (S "school/learning", S "self/growth/habits")]

/-- The fixed ordered list of canonical emotion names scanned by
`normalize_emotion_label`. -/
def CANON_EMOTIONS : List Str :=
  [S "Joy", S "Sadness", S "Anger", S "Fear", S "Surprise", S "Disgust",
   S "Neutral", S "Mixed"]

/-- `normalize_emotion_label` of the source: first canonical name occurring as a
(case-sensitive) substring wins, lower-cased; otherwise the trimmed lower-cased
input.  (The `e is None` branch never fires in the pipeline, which feeds it
values already converted by `astype(str)`.) -/
def normalize_emotion_label (e : Str) : Str :=
  match CANON_EMOTIONS.find? (fun k => isSubstr k e) with
  | some k => pyLower k
  | none => pyLower (pyStrip e)

/-- `canonical_domain` of the source: trim, lower-case, then look up in
`DOMAIN_ALIAS`, unmapped input passing through unchanged. -/
def canonical_domain (s : Str) : Str :=
  (alookup DOMAIN_ALIAS (pyLower (pyStrip s))).getD (pyLower (pyStrip s))

/-- `is_domain_adjacent` of the source: false on an empty side, otherwise
equality or membership of either ordering of the pair in `DOMAIN_ADJ`. -/
def is_domain_adjacent (a b : Str) : Bool :=
  if a = [] ∨ b = [] then false
  else
    pyLower a == pyLower b
      || DOMAIN_ADJ.contains (pyLower a, pyLower b)
      || DOMAIN_ADJ.contains (pyLower b, pyLower a)

/-- The bidirectional emotion-adjacency test inlined in `bucket_emotion`:
`(c in EMOTION_ADJ and mm in EMOTION_ADJ[c]) or
 (mm in EMOTION_ADJ and c in EMOTION_ADJ[mm])`. -/
def emotion_adj_bidir (c mm : Str) : Bool :=
  (match alookup EMOTION_ADJ c with
   | some s => s.contains mm
   | none => false)
  || (match alookup EMOTION_ADJ mm with
      | some s => s.contains c
      | none => false)

/-- The `map_manual_emotions` helper of `main`:
`sorted(set([EMOTION_MAP.get(x, x) for x in lst]))`. -/
def map_manual_emotions (lst : List Str) : List Str :=
  sortStr ((lst.map (fun x => (alookup EMOTION_MAP x).getD x)).dedup)

/-- The `classifier_emotion_norm` column derivation:
`str(x).split("–")[-1].strip()` fed to `normalize_emotion_label`
(the separator is the en dash, codepoint 8211). -/
def classifier_emotion_norm (raw : Str) : Str :=
  normalize_emotion_label (pyStrip ((pySplit 8211 raw).getLastD []))

/-- The `classifier_domain_norm` column derivation:
`str(x).lower().strip()` fed to `canonical_domain`. -/
def classifier_domain_norm (raw : Str) : Str :=
  canonical_domain (pyStrip (pyLower raw))

/-- `bucket_emotion` of the source; `manual.dedup` plays the role of
`set(row["manual_emotions_coarse"])`. -/
def bucket_emotion (manual : List Str) (c : Str) : Nat :=
  if manual.dedup = [] ∧ c = [] then 2
  else if c ∈ manual.dedup then 1
  else if c = S "mixed" ∧ 1 < manual.dedup.length then 2
  else if ∃ mm ∈ manual.dedup, emotion_adj_bidir c mm = true then 2
  else 3

/-- The manual-domain set of `bucket_domain`:
`set([x for x in row["manual_domains_canon"] if x])` (empty strings dropped). -/
def domain_mset (l : List Str) : List Str :=
  (l.filter (fun x => !x.isEmpty)).dedup

/-- `bucket_domain` of the source (codepoint 47 is the `/` separator). -/
def bucket_domain (manualCanon : List Str) (c : Str) : Nat :=
  if domain_mset manualCanon = [] ∧ c = [] then 2
  else if c ∈ domain_mset manualCanon then 1
  else if (47 : Nat) ∈ c ∧ ∃ p ∈ pySplit 47 c, p ∈ domain_mset manualCanon then 1
  else if ∃ mm ∈ domain_mset manualCanon, is_domain_adjacent c mm = true then 2
  else 3

/-- A Python value as it appears in an input cell or as the result of
`ast.literal_eval` in this program.  The only lists the program handles are
lists of label strings, so `pyList` carries token lists. -/
inductive PyVal where
  | pyNone : PyVal
  | pyBool : Bool → PyVal
  | pyInt : Int → PyVal
  | pyStr : Str → PyVal
  | pyList : List Str → PyVal
deriving DecidableEq

/-- Whether a Python value is a list. -/
def isPyList : PyVal → Bool
  | .pyList _ => true
  | _ => false

/-- Whether a Python value is a string. -/
def isPyStr : PyVal → Bool
  | .pyStr _ => true
  | _ => false

/-- Decimal digits of a nonempty all-digit string, as a number. -/
def parseNatLit (l : Str) : Option Nat :=
  if l = [] then none
  else l.foldl (fun acc d =>
    match acc with
    | some a => if 48 ≤ d ∧ d ≤ 57 then some (a * 10 + (d - 48)) else none
    | none => none) (some 0)

/-- An optionally negated integer literal. -/
def parseIntLit (l : Str) : Option Int :=
  match l with
  | 45 :: t => (parseNatLit t).map (fun n => -(n : Int))
  | _ => (parseNatLit l).map (fun n => (n : Int))

/-- A quoted string literal without escapes (39 = single quote, 34 = double
quote, 92 = backslash). -/
def parseStrLit (l : Str) : Option Str :=
  match l with
  | [] => none
  | q :: t =>
    if (q = 39 ∨ q = 34) ∧ t ≠ [] ∧ t.getLast? = some q
        ∧ t.dropLast.all (fun x => x != q && x != 92) then
      some t.dropLast
    else none

/-- A `[...]`-bracketed list of quoted string literals (91 = `[`, 93 = `]`,
44 = `,`). -/
def parseListLit (l : Str) : Option (List Str) :=
  if l.head? = some 91 ∧ l.getLast? = some 93 ∧ 2 ≤ l.length then
    let inner := (l.drop 1).dropLast
    if pyStrip inner = [] then some []
    else
      let parts := (pySplit 44 inner).map pyStrip
      if parts.all (fun p => (parseStrLit p).isSome) then
        some (parts.filterMap parseStrLit)
      else none
  else none

/-- Models `ast.literal_eval` on the literal forms this program can meet:
the keywords `True`/`False`/`None`, integers, quoted strings, and lists of
quoted strings.  `Except.error` stands for the exception `literal_eval`
raises on anything else. -/
def litEval (l : Str) : Except Unit PyVal :=
  let t := pyStrip l
  if t = S "True" then .ok (.pyBool true)
  else if t = S "False" then .ok (.pyBool false)
  else if t = S "None" then .ok .pyNone
  else match parseIntLit t with
  | some n => .ok (.pyInt n)
  | none =>
    match parseStrLit t with
    | some s => .ok (.pyStr s)
    | none =>
      match parseListLit t with
      | some xs => .ok (.pyList xs)
      | none => .error ()

/-- `ensure_list` of the source: a list passes through, a string goes through
`ast.literal_eval` with the whole result returned on success and `[]` on any
exception, and everything else becomes `[]`.  Totality of this definition is
the image of the catch-all `except Exception` of the source: the function
never lets an exception escape. -/
def ensure_list (x : PyVal) : PyVal :=
  match x with
  | .pyList l => .pyList l
  | .pyStr s =>
    match litEval s with
    | .ok v => v
    | .error _ => .pyList []
  | _ => .pyList []

/-- A row of the input table, as an association of column name to cell value. -/
abbrev Row := List (Str × PyVal)

/-- `row.get(c, False)` of the source. -/
def rowGet (r : Row) (c : Str) : PyVal :=
  (alookup r c).getD (.pyBool false)

/-- `get_labels` of `main`: for each listed column whose cell is the boolean
`True`, derive a token by deleting the column-family marker and `".raw"` from
the column name and trimming and lower-casing the remainder. -/
def get_labels (r : Row) (cols : List Str) (pre : Str) : List Str :=
  cols.filterMap (fun c =>
    if rowGet r c = PyVal.pyBool true then
      some (pyLower (pyStrip (pyReplace (S ".raw") [] (pyReplace pre [] c))))
    else none)

/-- The manual-label construction step of `main` (source lines 94-108): when
either explicit column is absent, both manual columns are rebuilt from the
`Answer.f1.` / `Answer.t1.` boolean columns; otherwise each existing cell goes
through `ensure_list`.  The `Except` layer makes the absence of any failure
path of the source visible: every branch returns `Except.ok`. -/
def buildManualLabels (cols : List Str) (rows : List Row) :
    Except Str (List PyVal × List PyVal) :=
  if S "manual_emotions" ∉ cols ∨ S "manual_domains" ∉ cols then
    let emoCols := cols.filter (fun c => startsWith (S "Answer.f1.") c)
    let domCols := cols.filter (fun c => startsWith (S "Answer.t1.") c)
    .ok (rows.map (fun r => PyVal.pyList (get_labels r emoCols (S "Answer.f1."))),
         rows.map (fun r => PyVal.pyList (get_labels r domCols (S "Answer.t1."))))
  else
    .ok (rows.map (fun r => ensure_list ((alookup r (S "manual_emotions")).getD .pyNone)),
         rows.map (fun r => ensure_list ((alookup r (S "manual_domains")).getD .pyNone)))

/-- A record with its derived fields, as consumed by the bucketing and
confusion steps of `main`. -/
structure Record where
  manual_emotions_coarse : List Str
  classifier_emotion_norm : Str
  manual_domains_canon : List Str
  classifier_domain_norm : Str
deriving DecidableEq

/-- The emotion bucket of a record. -/
def bucketE (r : Record) : Nat :=
  bucket_emotion r.manual_emotions_coarse r.classifier_emotion_norm

/-- The domain bucket of a record. -/
def bucketD (r : Record) : Nat :=
  bucket_domain r.manual_domains_canon r.classifier_domain_norm

/-- The emotion confusion pairs of `main` (source lines 150-156): the rows with
`bucket_emotion == 3`, each expanded into one `(manual, predicted)` pair per
element of `manual_emotions_coarse`. -/
def emo_pairs (recs : List Record) : List (Str × Str) :=
  (recs.filter (fun r => bucketE r == 3)).flatMap
    (fun r => r.manual_emotions_coarse.map (fun m => (m, r.classifier_emotion_norm)))

/-- The domain confusion pairs of `main` (source lines 159-165). -/
def dom_pairs (recs : List Record) : List (Str × Str) :=
  (recs.filter (fun r => bucketD r == 3)).flatMap
    (fun r => r.manual_domains_canon.map (fun m => (m, r.classifier_domain_norm)))

/-- The pairs a single record contributes to the emotion confusion table. -/
def emoPairsOf (r : Record) : List (Str × Str) :=
  if bucketE r = 3 then
    r.manual_emotions_coarse.map (fun m => (m, r.classifier_emotion_norm))
  else []

/-- The pairs a single record contributes to the domain confusion table. -/
def domPairsOf (r : Record) : List (Str × Str) :=
  if bucketD r = 3 then
    r.manual_domains_canon.map (fun m => (m, r.classifier_domain_norm))
  else []

/-- The emotion bucket exactly as claim C1 words it, over a genuine set:
rule 1 empty/empty, rule 2 exact membership, rule 3 mixed against a
many-element set, rule 4 bidirectional adjacency, rule 5 mismatch. -/
def bucket_emotion_spec (mset : Finset Str) (c : Str) : Nat :=
  if mset = ∅ ∧ c = [] then 2
  else if c ∈ mset then 1
  else if c = S "mixed" ∧ 1 < mset.card then 2
  else if ∃ mm ∈ mset, emotion_adj_bidir c mm = true then 2
  else 3

lemma dedup_singleton_str (a : Str) : [a].dedup = [a] := by
  simp

/-- C2: counterexample.  The claim predicts classifier token `"disgusted"` and
bucket 3 for manual `["angry"]`, classifier `"Disgusted"`.  On the code,
`"Disgust"` is a case-sensitive substring of `"Disgusted"`, so the normalized
token is `"disgust"`, the adjacency entry `disgust → {anger, sadness}` fires,
and the record gets bucket 2, not 3. -/
theorem c2_counterexample :
    classifier_emotion_norm (S "Disgusted") = S "disgust"
    ∧ S "disgust" ≠ S "disgusted"
    ∧ map_manual_emotions [S "angry"] = [S "anger"]
    ∧ bucket_emotion (map_manual_emotions [S "angry"])
        (classifier_emotion_norm (S "Disgusted")) = 2 := by
  refine ⟨by decide, by decide, by decide, by decide⟩

/-- C2 as amended: for manual_emotions `["angry"]` and classifier_emotion
`"Disgusted"`, the coarse manual set is `{"anger"}`, the normalized classifier
token is `"disgust"` (the substring scan of `normalize_emotion_label` matches
the canonical name `"Disgust"` inside `"Disgusted"`), the bidirectional
adjacency test between `"disgust"` and `"anger"` hits the table, and
bucket_emotion = 2. -/
theorem c2_amended :
    map_manual_emotions [S "angry"] = [S "anger"]
    ∧ classifier_emotion_norm (S "Disgusted") = S "disgust"
    ∧ emotion_adj_bidir (S "disgust") (S "anger") = true
    ∧ bucket_emotion [S "anger"] (S "disgust") = 2 := by
  refine ⟨by decide, by decide, by decide, by decide⟩

/-- C5: adjacency is symmetric in effect.  If the stored table maps `B` to a
set containing `A` and `A ≠ B`, then a record with coarse manual set `{B}` and
classifier `A` gets bucket_emotion 2, and so does a record with manual `{A}`
and classifier `B`. -/
theorem c5_adjacency_symmetric_in_effect (A B : Str) (s : List Str)
    (hAB : A ≠ B) (hB : alookup EMOTION_ADJ B = some s) (hA : A ∈ s) :
    bucket_emotion [B] A = 2 ∧ bucket_emotion [A] B = 2 := by
  have hbid1 : emotion_adj_bidir A B = true := by
    unfold emotion_adj_bidir
    rw [hB]
    simp [hA]
  have hbid2 : emotion_adj_bidir B A = true := by
    unfold emotion_adj_bidir
    rw [hB]
    simp [hA]
  constructor
  · unfold bucket_emotion
    rw [dedup_singleton_str]
    rw [if_neg (by simp), if_neg (by simpa using hAB),
      if_neg (by simp), if_pos ⟨B, by simp, hbid1⟩]
  · unfold bucket_emotion
    rw [dedup_singleton_str]
    rw [if_neg (by simp), if_neg (by simpa using hAB.symm),
      if_neg (by simp), if_pos ⟨A, by simp, hbid2⟩]

/-- C5: witness at `B = "joy"`, `A = "neutral"` (the stored entry
`joy → {neutral}`). -/
theorem c5_witness :
    bucket_emotion [S "joy"] (S "neutral") = 2
    ∧ bucket_emotion [S "neutral"] (S "joy") = 2 :=
  c5_adjacency_symmetric_in_effect (S "neutral") (S "joy") [S "neutral"]
    (by decide) (by decide) (by decide)

/-- C6: counterexample.  The claim says the bidirectional adjacency test
between `"surprise"` and every other coarse emotion is false; but `"surprise"`
is a member of the stored adjacency set of `"mixed"`, so the test with
`"mixed"` is true and a record with manual `{"surprise"}` and classifier
`"mixed"` gets bucket 2 through the adjacency rule. -/
theorem c6_counterexample :
    S "mixed" ≠ S "surprise"
    ∧ emotion_adj_bidir (S "mixed") (S "surprise") = true
    ∧ bucket_emotion [S "surprise"] (S "mixed") = 2 := by
  refine ⟨by decide, by decide, by decide⟩

/-- C6 as amended: for every coarse emotion `c` other than `"surprise"` and
`"mixed"`, the bidirectional adjacency test between `"surprise"` and `c` is
false in both argument orders, and a record with manual `{"surprise"}` and
classifier `c` falls through to bucket 3. -/
theorem c6_amended (c : Str)
    (hc : c ∈ [S "joy", S "sadness", S "anger", S "fear", S "disgust",
               S "neutral"]) :
    emotion_adj_bidir c (S "surprise") = false
    ∧ emotion_adj_bidir (S "surprise") c = false
    ∧ bucket_emotion [S "surprise"] c = 3 := by
  simp only [List.mem_cons, List.not_mem_nil, or_false] at hc
  rcases hc with rfl | rfl | rfl | rfl | rfl | rfl <;>
    refine ⟨by decide, by decide, by decide⟩

/-- C6: witness at `c = "joy"`. -/
theorem c6_witness :
    emotion_adj_bidir (S "joy") (S "surprise") = false
    ∧ emotion_adj_bidir (S "surprise") (S "joy") = false
    ∧ bucket_emotion [S "surprise"] (S "joy") = 3 :=
  c6_amended (S "joy") (by decide)

/-- C7: compound classifier domain.  If the filtered manual set does not
contain `c`, but `c` contains a `/` (codepoint 47) and some part of the split
is a member of the set, the domain bucket is 1. -/
theorem c7_compound_split_full_match (manualCanon : List Str) (c : Str)
    (h1 : c ∉ domain_mset manualCanon)
    (h2 : (47 : Nat) ∈ c)
    (h3 : ∃ p ∈ pySplit 47 c, p ∈ domain_mset manualCanon) :
    bucket_domain manualCanon c = 1 := by
  have hc : c ≠ [] := List.ne_nil_of_mem h2
  unfold bucket_domain
  rw [if_neg (by simp [hc]), if_neg h1, if_pos ⟨h2, h3⟩]

/-- C7: witness with manual `["family"]` and classifier `"family/friends"`. -/
theorem c7_witness : bucket_domain [S "family"] (S "family/friends") = 1 :=
  c7_compound_split_full_match [S "family"] (S "family/friends")
    (by decide) (by decide) (by decide)

/-- C10: emotion bucketing keeps empty strings in the manual set while domain
bucketing filters them out.  A coarse manual emotion set containing `""` with
an empty classifier token exact-matches to bucket 1, while a manual domain
list of only empty strings with an empty classifier token empties out and
gets bucket 2. -/
theorem c10_empty_string_asymmetry (me md : List Str)
    (h1 : [] ∈ me) (h2 : ∀ x ∈ md, x = []) :
    bucket_emotion me [] = 1 ∧ bucket_domain md [] = 2 := by
  constructor
  · have hne : me ≠ [] := by
      intro h
      rw [h] at h1
      exact List.not_mem_nil [] h1
    unfold bucket_emotion
    rw [if_neg (by simp [List.dedup_eq_nil, hne]),
      if_pos (List.mem_dedup.mpr h1)]
  · have hms : domain_mset md = [] := by
      unfold domain_mset
      rw [List.dedup_eq_nil]
      rw [List.filter_eq_nil_iff]
      intro a ha
      rw [h2 a ha]
      simp
    unfold bucket_domain
    rw [if_pos ⟨hms, rfl⟩]

/-- C10: witness with `manual_emotions_coarse = [""]` and
`manual_domains_canon = [""]`. -/
theorem c10_witness :
    bucket_emotion [([] : Str)] [] = 1 ∧ bucket_domain [([] : Str)] [] = 2 :=
  c10_empty_string_asymmetry [[]] [[]] (by decide) (by decide)

/-- C1: for every record, `bucket_emotion` is assigned by exactly the claimed
5-rule precedence over the set of coarse manual labels: empty/empty → 2,
exact membership → 1 (before adjacency), mixed against a many-element set → 2,
bidirectional adjacency to some member → 2, otherwise 3. -/
theorem c1_bucket_emotion_precedence (l : List Str) (c : Str) :
    bucket_emotion l c = bucket_emotion_spec l.toFinset c := by
  unfold bucket_emotion bucket_emotion_spec
  have e1 : (l.dedup = [] ∧ c = []) ↔ (l.toFinset = ∅ ∧ c = []) := by
    rw [List.dedup_eq_nil, List.toFinset_eq_empty_iff]
  have e2 : (c ∈ l.dedup) ↔ (c ∈ l.toFinset) := by
    rw [List.mem_dedup, List.mem_toFinset]
  have e3 : (c = S "mixed" ∧ 1 < l.dedup.length)
      ↔ (c = S "mixed" ∧ 1 < l.toFinset.card) := by
    rw [List.card_toFinset]
  have e4 : (∃ mm ∈ l.dedup, emotion_adj_bidir c mm = true)
      ↔ (∃ mm ∈ l.toFinset, emotion_adj_bidir c mm = true) := by
    simp only [List.mem_dedup, List.mem_toFinset]
  rw [if_congr e1 rfl (if_congr e2 rfl (if_congr e3 rfl (if_congr e4 rfl rfl)))]

lemma filter_flatMap {α β : Type} (f : α → Bool) (g : α → List β)
    (l : List α) :
    (l.filter f).flatMap g
      = l.flatMap (fun a => if f a = true then g a else []) := by
  induction l with
  | nil => rfl
  | cons a t ih =>
    by_cases h : f a = true
    · simp [List.filter_cons, h, ih]
    · simp [List.filter_cons, h, ih]

/-- C8: confusion-table scope.  Every pair of the emotion (resp. domain)
confusion list originates in a bucket-3 record whose manual field contains the
row label and whose predicted field is the column label; the pair lists are
exactly the concatenated per-record contributions; a bucket-3 record with k
manual labels contributes k pairs, all with that record's predicted value, and
a record of any other bucket contributes none.  (The crosstab rows/columns are
exactly the distinct first/second components of the observed pairs.) -/
theorem c8_confusion_scope (recs : List Record) :
    (∀ p ∈ emo_pairs recs, ∃ r ∈ recs, bucketE r = 3
      ∧ p.1 ∈ r.manual_emotions_coarse ∧ p.2 = r.classifier_emotion_norm)
    ∧ emo_pairs recs = recs.flatMap emoPairsOf
    ∧ (∀ r : Record, bucketE r = 3 →
        (emoPairsOf r).length = r.manual_emotions_coarse.length
        ∧ ∀ p ∈ emoPairsOf r, p.2 = r.classifier_emotion_norm)
    ∧ (∀ r : Record, bucketE r ≠ 3 → emoPairsOf r = [])
    ∧ (∀ p ∈ dom_pairs recs, ∃ r ∈ recs, bucketD r = 3
      ∧ p.1 ∈ r.manual_domains_canon ∧ p.2 = r.classifier_domain_norm)
    ∧ dom_pairs recs = recs.flatMap domPairsOf
    ∧ (∀ r : Record, bucketD r = 3 →
        (domPairsOf r).length = r.manual_domains_canon.length
        ∧ ∀ p ∈ domPairsOf r, p.2 = r.classifier_domain_norm)
    ∧ (∀ r : Record, bucketD r ≠ 3 → domPairsOf r = []) := by
  refine ⟨?_, ?_, ?_, ?_, ?_, ?_, ?_, ?_⟩
  · intro p hp
    unfold emo_pairs at hp
    rw [List.mem_flatMap] at hp
    obtain ⟨r, hr, hpr⟩ := hp
    rw [List.mem_filter] at hr
    obtain ⟨hrm, hr3⟩ := hr
    rw [List.mem_map] at hpr
    obtain ⟨m, hm, hpm⟩ := hpr
    exact ⟨r, hrm, by simpa using hr3, by rw [← hpm]; exact ⟨hm, rfl⟩⟩
  · unfold emo_pairs
    rw [filter_flatMap]
    congr 1
    funext r
    unfold emoPairsOf
    simp
  · intro r h3
    unfold emoPairsOf
    rw [if_pos h3]
    refine ⟨List.length_map _ _, ?_⟩
    intro p hp
    rw [List.mem_map] at hp
    obtain ⟨m, _, hpm⟩ := hp
    rw [← hpm]
  · intro r h3
    unfold emoPairsOf
    rw [if_neg h3]
  · intro p hp
    unfold dom_pairs at hp
    rw [List.mem_flatMap] at hp
    obtain ⟨r, hr, hpr⟩ := hp
    rw [List.mem_filter] at hr
    obtain ⟨hrm, hr3⟩ := hr
    rw [List.mem_map] at hpr
    obtain ⟨m, hm, hpm⟩ := hpr
    exact ⟨r, hrm, by simpa using hr3, by rw [← hpm]; exact ⟨hm, rfl⟩⟩
  · unfold dom_pairs
    rw [filter_flatMap]
    congr 1
    funext r
    unfold domPairsOf
    simp
  · intro r h3
    unfold domPairsOf
    rw [if_pos h3]
    refine ⟨List.length_map _ _, ?_⟩
    intro p hp
    rw [List.mem_map] at hp
    obtain ⟨m, _, hpm⟩ := hp
    rw [← hpm]
  · intro r h3
    unfold domPairsOf
    rw [if_neg h3]

/-- C8: witness.  A concrete bucket-3 record with two coarse manual emotions
contributes exactly two pairs. -/
theorem c8_witness :
    (emoPairsOf (Record.mk [S "joy", S "fear"] (S "anger") [] [])).length
      = (Record.mk [S "joy", S "fear"] (S "anger") []
          []).manual_emotions_coarse.length :=
  ((c8_confusion_scope []).2.2.1
    (Record.mk [S "joy", S "fear"] (S "anger") [] []) (by decide)).1

lemma lowerC_idem (a : Nat) : lowerC (lowerC a) = lowerC a := by
  unfold lowerC
  by_cases h : 65 ≤ a ∧ a ≤ 90
  · rw [if_pos h, if_neg (by omega)]
  · rw [if_neg h, if_neg h]

lemma isSpaceB_lowerC (a : Nat) : isSpaceB (lowerC a) = isSpaceB a := by
  unfold lowerC isSpaceB
  by_cases h : 65 ≤ a ∧ a ≤ 90
  · rw [if_pos h, decide_eq_decide]
    omega
  · rw [if_neg h]

lemma pyLower_pyLower (l : Str) : pyLower (pyLower l) = pyLower l := by
  unfold pyLower
  rw [List.map_map]
  exact List.map_congr_left (fun a _ => lowerC_idem a)

lemma dropWhile_dropWhile {α : Type} (p : α → Bool) (l : List α) :
    (l.dropWhile p).dropWhile p = l.dropWhile p := by
  induction l with
  | nil => rfl
  | cons a t ih =>
    by_cases h : p a = true
    · rw [List.dropWhile_cons_of_pos h, ih]
    · rw [List.dropWhile_cons_of_neg h, List.dropWhile_cons_of_neg h]

lemma isSpaceB_comp_lowerC : (isSpaceB ∘ lowerC) = isSpaceB :=
  funext isSpaceB_lowerC

lemma dropWhile_pyLower (l : Str) :
    (pyLower l).dropWhile isSpaceB = pyLower (l.dropWhile isSpaceB) := by
  unfold pyLower
  rw [List.dropWhile_map, isSpaceB_comp_lowerC]

lemma pyStrip_pyLower (l : Str) :
    pyStrip (pyLower l) = pyLower (pyStrip l) := by
  unfold pyStrip
  rw [dropWhile_pyLower]
  unfold pyLower
  simp only [← List.map_reverse, List.dropWhile_map, isSpaceB_comp_lowerC]

lemma dropWhile_eq_self_of_append {α : Type} {p : α → Bool} {m s l : List α}
    (he : m ++ s = l) (hl : l.dropWhile p = l) : m.dropWhile p = m := by
  subst he
  cases m with
  | nil => rfl
  | cons a t =>
    rw [List.dropWhile_eq_self_iff] at hl ⊢
    intro h
    exact hl (by simp)

lemma pyStrip_pyStrip (l : Str) : pyStrip (pyStrip l) = pyStrip l := by
  have hu : (l.dropWhile isSpaceB).dropWhile isSpaceB = l.dropWhile isSpaceB :=
    dropWhile_dropWhile isSpaceB l
  have hsplit :
      ((l.dropWhile isSpaceB).reverse.dropWhile isSpaceB).reverse
        ++ ((l.dropWhile isSpaceB).reverse.takeWhile isSpaceB).reverse
        = l.dropWhile isSpaceB := by
    rw [← List.reverse_append, List.takeWhile_append_dropWhile,
      List.reverse_reverse]
  have hA : (pyStrip l).dropWhile isSpaceB = pyStrip l :=
    dropWhile_eq_self_of_append hsplit hu
  have e : pyStrip (pyStrip l)
      = (((pyStrip l).dropWhile isSpaceB).reverse.dropWhile isSpaceB).reverse :=
    rfl
  rw [e, hA]
  have hrev : (pyStrip l).reverse
      = (l.dropWhile isSpaceB).reverse.dropWhile isSpaceB := by
    unfold pyStrip
    rw [List.reverse_reverse]
  rw [hrev, dropWhile_dropWhile]
  rfl

lemma norm_idem (x : Str) :
    pyLower (pyStrip (pyLower (pyStrip x))) = pyLower (pyStrip x) := by
  rw [pyStrip_pyLower, pyStrip_pyStrip, pyLower_pyLower]

lemma alookup_mem {α : Type} {t : List (Str × α)} {k : Str} {v : α}
    (h : alookup t k = some v) : v ∈ t.map Prod.snd := by
  induction t with
  | nil => exact absurd h (by simp [alookup])
  | cons a r ih =>
    obtain ⟨ka, va⟩ := a
    unfold alookup at h
    by_cases hk : ka = k
    · rw [if_pos hk] at h
      injection h with h
      rw [← h]
      simp
    · rw [if_neg hk] at h
      simpa using Or.inr (by simpa using ih h)

lemma canonical_vals : ∀ v ∈ DOMAIN_ALIAS.map Prod.snd,
    canonical_domain v = v := by decide

/-- C4: `canonical_domain` is idempotent on every string, and every canonical
value of the Domain Alias Table maps to itself. -/
theorem c4_canonical_domain_idempotent :
    (∀ x : Str, canonical_domain (canonical_domain x) = canonical_domain x)
    ∧ ∀ v ∈ DOMAIN_ALIAS.map Prod.snd, canonical_domain v = v := by
  refine ⟨?_, canonical_vals⟩
  intro x
  rcases h : alookup DOMAIN_ALIAS (pyLower (pyStrip x)) with _ | v
  · have hx : canonical_domain x = pyLower (pyStrip x) := by
      unfold canonical_domain
      rw [h]
      rfl
    rw [hx]
    unfold canonical_domain
    rw [norm_idem, h]
    rfl
  · have hx : canonical_domain x = v := by
      unfold canonical_domain
      rw [h]
      rfl
    rw [hx]
    exact canonical_vals v (alookup_mem h)

/-- C4: witness. -/
theorem c4_witness :
    canonical_domain (canonical_domain (S " Fitness ")) =
      canonical_domain (S " Fitness ")
    ∧ canonical_domain (S "family") = S "family" :=
  ⟨c4_canonical_domain_idempotent.1 (S " Fitness "),
   c4_canonical_domain_idempotent.2 (S "family") (by decide)⟩

/-- C3: counterexample.  On a table whose columns are only `EmotionPro` and
`DomainPro` — no explicit manual columns and no `Answer.f1.` / `Answer.t1.`
boolean columns — the manual-label construction step does not fail: it
returns successfully with an empty manual-label list for each of the two
records. -/
theorem c3_counterexample :
    buildManualLabels [S "EmotionPro", S "DomainPro"] [[], []]
      = .ok ([PyVal.pyList [], PyVal.pyList []],
             [PyVal.pyList [], PyVal.pyList []]) := rfl

/-- C3 as amended: when the input table has neither the explicit
`manual_emotions`/`manual_domains` columns nor any column with the
`Answer.f1.`/`Answer.t1.` prefixes, the process does not fail; it silently
proceeds with an empty manual-label set for every record. -/
theorem c3_amended (cols : List Str) (rows : List Row)
    (hA : S "manual_emotions" ∉ cols)
    (hC : cols.filter (fun c => startsWith (S "Answer.f1.") c) = [])
    (hD : cols.filter (fun c => startsWith (S "Answer.t1.") c) = []) :
    buildManualLabels cols rows
      = .ok (rows.map (fun _ => PyVal.pyList []),
             rows.map (fun _ => PyVal.pyList [])) := by
  unfold buildManualLabels
  rw [if_pos (Or.inl hA), hC, hD]
  rfl

/-- C3: witness at a concrete one-row table with a single unrelated column. -/
theorem c3_witness :
    buildManualLabels [S "EmotionPro"] [[]]
      = .ok ([PyVal.pyList []], [PyVal.pyList []]) :=
  c3_amended [S "EmotionPro"] [[]] (by decide) (by decide) (by decide)

/-- C9: counterexample.  The cell string `"42"` parses as a Python literal, so
`ensure_list` returns the integer 42 itself — not a token list — refuting
"always yields a token list" and "a string that cannot be parsed into a token
list falls back to the empty list". -/
theorem c9_counterexample :
    ensure_list (PyVal.pyStr (S "42")) = PyVal.pyInt 42
    ∧ isPyList (ensure_list (PyVal.pyStr (S "42"))) = false := by
  refine ⟨by decide, by decide⟩

/-- C9 as amended: `ensure_list` never raises (every branch, including the
caught parse failure, returns a value); an actual list is returned unchanged;
a string on which `literal_eval` raises falls back to the empty list; a
string that parses is returned as whatever value it parses to, which need not
be a list; and any non-list non-string value falls back to the empty list. -/
theorem c9_amended (x : PyVal) :
    (∀ l, x = PyVal.pyList l → ensure_list x = PyVal.pyList l)
    ∧ (∀ s, x = PyVal.pyStr s → litEval s = Except.error () →
        ensure_list x = PyVal.pyList [])
    ∧ (∀ s v, x = PyVal.pyStr s → litEval s = Except.ok v → ensure_list x = v)
    ∧ (isPyList x = false → isPyStr x = false →
        ensure_list x = PyVal.pyList []) := by
  refine ⟨?_, ?_, ?_, ?_⟩
  · intro l h
    subst h
    rfl
  · intro s h he
    subst h
    change (match litEval s with
      | Except.ok v => v
      | Except.error _ => PyVal.pyList []) = PyVal.pyList []
    rw [he]
  · intro s v h he
    subst h
    change (match litEval s with
      | Except.ok v => v
      | Except.error _ => PyVal.pyList []) = v
    rw [he]
  · intro h1 h2
    cases x with
    | pyList l => simp [isPyList] at h1
    | pyStr s => simp [isPyStr] at h2
    | pyNone => rfl
    | pyBool b => rfl
    | pyInt n => rfl

/-- C9: witness on a string `literal_eval` rejects. -/
theorem c9_witness :
    ensure_list (PyVal.pyStr (S "oops[")) = PyVal.pyList [] :=
  (c9_amended (PyVal.pyStr (S "oops["))).2.1 (S "oops[") rfl rfl

end EvalBucketing
